import Mathlib

/-!
Verification of the machine-orchestration core of an IBM PC emulator.

The development shallow-embeds `bus.rs` (memory bus with ROM access masks,
cursor-based and address-indexed byte interfaces, hex dump) and `machine.rs`
(execution control and the per-slice scheduler `Machine::run`).  Peripheral
devices (CPU, PIC, PPI, PIT, DMA, FDC, HDC, CGA, ROM manager) are not part of
the embedded sources; they are modelled abstractly from the specification's
device contracts, and the scheduler is proved correct for every such model.

Machine integers are embedded as `Nat`: a `u8` value is a natural below 256,
a `u16` below 65536; casts are made explicit with `% 256`, `&&& 0xFF`,
`>>> 8` exactly where the source performs them.  The `Vec<u8>` memory of the
bus (allocated once with length `ADDRESS_SPACE` and never resized) becomes a
total function `Nat → Nat` together with the constant length.
-/

/-- Address space size of the memory bus: `const ADDRESS_SPACE: usize = 1_048_576`. -/
def ADDRESS_SPACE : Nat := 1048576

/-- Cycle cost charged per byte accessed: `const DEFAULT_CYCLE_COST: u32 = 4`. -/
def DEFAULT_CYCLE_COST : Nat := 4

/-- Read-only bit of an access-mask byte: `const ROM_BIT: u8 = 0b1000_0000`. -/
def ROM_BIT : Nat := 128

/-- Memory range descriptor (`struct MemRangeDescriptor` in `bus.rs`). -/
structure MemRangeDescriptor where
  start : Nat
  «end» : Nat
  size : Nat
  cycle_cost : Nat
  read_only : Bool

/-- The memory bus (`struct BusInterface` in `bus.rs`).  `memory` and
`memory_mask` are the two parallel byte arrays, both of fixed length
`ADDRESS_SPACE`; they are embedded as total functions whose values beyond
the length are never consulted. -/
structure BusInterface where
  memory : Nat → Nat
  memory_mask : Nat → Nat
  desc_vec : List MemRangeDescriptor
  cursor : Nat

/-- `BusInterface::new()`: zeroed memory and mask, no descriptors, cursor 0. -/
def BusInterface.new : BusInterface :=
  { memory := fun _ => 0
    memory_mask := fun _ => 0
    desc_vec := []
    cursor := 0 }

/-- Reinterpretation of a `u8` value (a natural below 256) as an `i8`,
as performed by Rust's `as i8` cast. -/
def i8_of_u8 (b : Nat) : Int :=
  if b < 128 then (b : Int) else (b : Int) - 256

/-- Reinterpretation of a `u16` value (a natural below 65536) as an `i16`,
as performed by Rust's `as i16` cast. -/
def i16_of_u16 (w : Nat) : Int :=
  if w < 32768 then (w : Int) else (w : Int) - 65536

/-- Cursor-based `ByteInterface::set_cursor` for `BusInterface`. -/
def ByteInterface.set_cursor (self : BusInterface) (pos : Nat) : BusInterface :=
  { self with cursor := pos }

/-- Cursor-based `ByteInterface::tell` for `BusInterface`. -/
def ByteInterface.tell (self : BusInterface) : Nat :=
  self.cursor

/-- Cursor-based `ByteInterface::read_u8` for `BusInterface`.  Returns the
value read together with the updated bus and cycle accumulator. -/
def ByteInterface.read_u8 (self : BusInterface) (cost : Nat) :
    Nat × BusInterface × Nat :=
  if self.cursor < ADDRESS_SPACE then
    (self.memory self.cursor,
     { self with cursor := self.cursor + 1 },
     cost + DEFAULT_CYCLE_COST)
  else
    (0xff, self, cost + DEFAULT_CYCLE_COST)

/-- Cursor-based `ByteInterface::read_i8` for `BusInterface`. -/
def ByteInterface.read_i8 (self : BusInterface) (cost : Nat) :
    Int × BusInterface × Nat :=
  if self.cursor < ADDRESS_SPACE then
    (i8_of_u8 (self.memory self.cursor),
     { self with cursor := self.cursor + 1 },
     cost + DEFAULT_CYCLE_COST)
  else
    (-1, self, cost + DEFAULT_CYCLE_COST)

/-- Cursor-based `ByteInterface::write_u8` for `BusInterface`.  Note that the
in-range branch of the source has no early `return`, so it falls through to
the trailing `*cost += DEFAULT_CYCLE_COST` and charges the cost twice. -/
def ByteInterface.write_u8 (self : BusInterface) (data cost : Nat) :
    BusInterface × Nat :=
  if self.cursor < ADDRESS_SPACE then
    ({ self with
        memory := Function.update self.memory self.cursor (data % 256)
        cursor := self.cursor + 1 },
     cost + DEFAULT_CYCLE_COST + DEFAULT_CYCLE_COST)
  else
    (self, cost + DEFAULT_CYCLE_COST)

/-- Cursor-based `ByteInterface::write_i8` for `BusInterface` (the `i8`
argument is embedded as its `u8` bit pattern, a natural below 256). -/
def ByteInterface.write_i8 (self : BusInterface) (data cost : Nat) :
    BusInterface × Nat :=
  if self.cursor < ADDRESS_SPACE then
    ({ self with
        memory := Function.update self.memory self.cursor (data % 256)
        cursor := self.cursor + 1 },
     cost + DEFAULT_CYCLE_COST + DEFAULT_CYCLE_COST)
  else
    (self, cost + DEFAULT_CYCLE_COST)

/-- Cursor-based `ByteInterface::read_u16` for `BusInterface` (little endian). -/
def ByteInterface.read_u16 (self : BusInterface) (cost : Nat) :
    Nat × BusInterface × Nat :=
  if self.cursor < ADDRESS_SPACE - 1 then
    (self.memory self.cursor ||| (self.memory (self.cursor + 1)) <<< 8,
     { self with cursor := self.cursor + 2 },
     cost + DEFAULT_CYCLE_COST * 2)
  else
    (0xffff, self, cost + DEFAULT_CYCLE_COST * 2)

/-- Cursor-based `ByteInterface::read_i16` for `BusInterface`. -/
def ByteInterface.read_i16 (self : BusInterface) (cost : Nat) :
    Int × BusInterface × Nat :=
  if self.cursor < ADDRESS_SPACE - 1 then
    (i16_of_u16 (self.memory self.cursor ||| (self.memory (self.cursor + 1)) <<< 8),
     { self with cursor := self.cursor + 2 },
     cost + DEFAULT_CYCLE_COST * 2)
  else
    (-1, self, cost + DEFAULT_CYCLE_COST * 2)

/-- Cursor-based `ByteInterface::write_u16` for `BusInterface`.  The source
OR-merges (`|=`) the two bytes into memory, and the in-range branch again
falls through to the trailing cost line, charging `4 * 2` twice. -/
def ByteInterface.write_u16 (self : BusInterface) (data cost : Nat) :
    BusInterface × Nat :=
  let d := data % 65536
  if self.cursor < ADDRESS_SPACE - 1 then
    ({ self with
        memory :=
          Function.update
            (Function.update self.memory self.cursor
              (self.memory self.cursor ||| (d &&& 0xFF)))
            (self.cursor + 1)
            (self.memory (self.cursor + 1) ||| (d >>> 8))
        cursor := self.cursor + 2 },
     cost + DEFAULT_CYCLE_COST * 2 + DEFAULT_CYCLE_COST * 2)
  else
    (self, cost + DEFAULT_CYCLE_COST * 2)

/-- Cursor-based `ByteInterface::write_i16` for `BusInterface` (the `i16`
argument is embedded as its `u16` bit pattern). -/
def ByteInterface.write_i16 (self : BusInterface) (data cost : Nat) :
    BusInterface × Nat :=
  let d := data % 65536
  if self.cursor < ADDRESS_SPACE - 1 then
    ({ self with
        memory :=
          Function.update
            (Function.update self.memory self.cursor
              (self.memory self.cursor ||| (d &&& 0xFF)))
            (self.cursor + 1)
            (self.memory (self.cursor + 1) ||| (d >>> 8))
        cursor := self.cursor + 2 },
     cost + DEFAULT_CYCLE_COST * 2 + DEFAULT_CYCLE_COST * 2)
  else
    (self, cost + DEFAULT_CYCLE_COST * 2)

/-- Memory errors (`enum MemError`). -/
inductive MemError where
  | ReadOutOfBoundsError : MemError
deriving DecidableEq

/-- Address-indexed `BusInterface::read_u8`. -/
def BusInterface.read_u8 (self : BusInterface) (address : Nat) :
    Except MemError (Nat × Nat) :=
  if address < ADDRESS_SPACE then
    .ok (self.memory address, DEFAULT_CYCLE_COST)
  else
    .error .ReadOutOfBoundsError

/-- Address-indexed `BusInterface::read_i8`. -/
def BusInterface.read_i8 (self : BusInterface) (address : Nat) :
    Except MemError (Int × Nat) :=
  if address < ADDRESS_SPACE then
    .ok (i8_of_u8 (self.memory address), DEFAULT_CYCLE_COST)
  else
    .error .ReadOutOfBoundsError

/-- Address-indexed `BusInterface::read_u16` (little endian). -/
def BusInterface.read_u16 (self : BusInterface) (address : Nat) :
    Except MemError (Nat × Nat) :=
  if address < ADDRESS_SPACE - 1 then
    .ok (self.memory address ||| (self.memory (address + 1)) <<< 8,
         DEFAULT_CYCLE_COST)
  else
    .error .ReadOutOfBoundsError

/-- Address-indexed `BusInterface::read_i16`. -/
def BusInterface.read_i16 (self : BusInterface) (address : Nat) :
    Except MemError (Int × Nat) :=
  if address < ADDRESS_SPACE - 1 then
    .ok (i16_of_u16 (self.memory address ||| (self.memory (address + 1)) <<< 8),
         DEFAULT_CYCLE_COST)
  else
    .error .ReadOutOfBoundsError

/-- Address-indexed `BusInterface::write_u8`: a write to a ROM-masked byte is
silently dropped but still returns the cycle cost. -/
def BusInterface.write_u8 (self : BusInterface) (address data : Nat) :
    Except MemError (BusInterface × Nat) :=
  if address < ADDRESS_SPACE then
    if self.memory_mask address &&& ROM_BIT = 0 then
      .ok ({ self with
              memory := Function.update self.memory address (data % 256) },
           DEFAULT_CYCLE_COST)
    else
      .ok (self, DEFAULT_CYCLE_COST)
  else
    .error .ReadOutOfBoundsError

/-- Address-indexed `BusInterface::write_i8`. -/
def BusInterface.write_i8 (self : BusInterface) (address data : Nat) :
    Except MemError (BusInterface × Nat) :=
  if address < ADDRESS_SPACE then
    if self.memory_mask address &&& ROM_BIT = 0 then
      .ok ({ self with
              memory := Function.update self.memory address (data % 256) },
           DEFAULT_CYCLE_COST)
    else
      .ok (self, DEFAULT_CYCLE_COST)
  else
    .error .ReadOutOfBoundsError

/-- Address-indexed `BusInterface::write_u16`: only the access mask of the
low address is consulted; low byte first (little endian). -/
def BusInterface.write_u16 (self : BusInterface) (address data : Nat) :
    Except MemError (BusInterface × Nat) :=
  let d := data % 65536
  if address < ADDRESS_SPACE - 1 then
    if self.memory_mask address &&& ROM_BIT = 0 then
      .ok ({ self with
              memory :=
                Function.update
                  (Function.update self.memory address (d &&& 0xFF))
                  (address + 1) (d >>> 8) },
           DEFAULT_CYCLE_COST)
    else
      .ok (self, DEFAULT_CYCLE_COST)
  else
    .error .ReadOutOfBoundsError

/-- `BusInterface::reset`: clears the descriptors and zeroes the memory;
the access mask and the cursor are left untouched. -/
def BusInterface.reset (self : BusInterface) : BusInterface :=
  { self with desc_vec := [], memory := fun _ => 0 }

/-- Lowercase hexadecimal digit character, for `format!("{:02x}", byte)`. -/
def hexDigitLower (n : Nat) : Char :=
  if n < 10 then Char.ofNat (48 + n) else Char.ofNat (97 + (n - 10))

/-- Uppercase hexadecimal digit character, for `format!("{:05X}", addr)`. -/
def hexDigitUpper (n : Nat) : Char :=
  if n < 10 then Char.ofNat (48 + n) else Char.ofNat (65 + (n - 10))

/-- Rendering of `format!("{:02x} ", byte)` for a `u8` value (a natural below
256): exactly two lowercase hex digits. -/
def hex2 (b : Nat) : String :=
  String.mk [hexDigitLower (b / 16 % 16), hexDigitLower (b % 16)]

/-- Rendering of `format!("{:05X}", addr)` for an address below `2 ^ 20`:
exactly five uppercase hex digits. -/
def hex5 (n : Nat) : String :=
  String.mk [hexDigitUpper (n / 65536 % 16), hexDigitUpper (n / 4096 % 16),
    hexDigitUpper (n / 256 % 16), hexDigitUpper (n / 16 % 16),
    hexDigitUpper (n % 16)]

/-- ASCII cell of `dump_flat`, the source's `match byte` with arms
`00..=31`, `32..=127` and `128..`. -/
def dumpAsciiChar (b : Nat) : String :=
  if b ≤ 31 then "."
  else if b ≤ 127 then String.singleton (Char.ofNat b)
  else "."

/-- One 16-byte row of `dump_flat`, built as by
`format!("{:05X} {} {}\n", display_address, dump_line, ascii_line)`. -/
def dumpRow (mem : Nat → Nat) (display_address : Nat) : String :=
  hex5 display_address ++ " " ++
    String.join ((List.range 16).map fun i => hex2 (mem (display_address + i)) ++ " ") ++
    " " ++
    String.join ((List.range 16).map fun i => dumpAsciiChar (mem (display_address + i))) ++
    "\n"

/-- `BusInterface::dump_flat(address, size)`.  The source iterates over
`chunks_exact(16)` of `memory[address..address+size]`, i.e. over the
`size / 16` complete 16-byte rows, with `display_address` advancing by 16 per
row. -/
def BusInterface.dump_flat (self : BusInterface) (address size : Nat) : String :=
  if address + size ≥ ADDRESS_SPACE then
    "REQUEST OUT OF BOUNDS"
  else
    String.join ((List.range (size / 16)).map fun r =>
      dumpRow self.memory (address + 16 * r))

/-- Execution states (`enum ExecutionState` in `machine.rs`). -/
inductive ExecutionState where
  | Paused : ExecutionState
  | BreakpointHit : ExecutionState
  | Running : ExecutionState
deriving DecidableEq

/-- Execution control (`struct ExecutionControl` in `machine.rs`): the state
plus the three one-shot request flags. -/
structure ExecutionControl where
  state : ExecutionState
  do_step : Bool
  do_run : Bool
  do_reset : Bool
deriving DecidableEq

/-- Modelled from the spec: the device contracts of section 4.6.  The CPU,
PIC, PPI, PIT, DMA controller, FDC, HDC, CGA card, the I/O bus and the ROM
manager are external collaborators whose sources are not part of the embedded
core; their combined state is one abstract type `D` and every contract method
the scheduler invokes is an arbitrary function over `D` (and the memory bus,
where the source passes `&mut self.bus`).  `cpu_step` returns the error
message in place of `Err(CpuError)`. -/
structure DeviceOps (D : Type) where
  is_error : D → Bool
  get_flat_address : D → Nat
  cpu_step : D → BusInterface → D × BusInterface × Option String
  interrupts_enabled : D → Bool
  query_interrupt_line : D → Bool
  get_interrupt_vector : D → Option Nat × D
  do_hw_interrupt : D → BusInterface → Nat → D × BusInterface
  send_keyboard : D → Nat → D
  request_interrupt : D → Nat → D
  dma_run : D → D
  pit_run : D → BusInterface → D × BusInterface
  cga_run : D → D
  ppi_run : D → D
  fdc_run : D → BusInterface → D × BusInterface
  hdc_run : D → BusInterface → D × BusInterface
  get_checkpoint : D → Nat → Option String
  is_patch_checkpoint : D → Nat → Bool
  install_patches : D → BusInterface → BusInterface
  cpu_reset : D → D
  copy_into_memory : D → BusInterface → BusInterface
  pit_reset : D → D
  pic_reset : D → D

/-- Modelled from the spec: device internals are opaque, so the observable
contract calls the scheduler makes on the CPU, the PPI and the PIC are
recorded as events in the order they happen. -/
inductive RunEvent where
  | cpu_step : RunEvent
  | ppi_send_keyboard : Nat → RunEvent
  | pic_request_interrupt : Nat → RunEvent
deriving DecidableEq

/-- Whether an event is a CPU step. -/
def RunEvent.isCpuStep : RunEvent → Bool
  | .cpu_step => true
  | _ => false

/-- Whether an event hands a keyboard byte to the PPI. -/
def RunEvent.isKbSend : RunEvent → Bool
  | .ppi_send_keyboard _ => true
  | _ => false

/-- Whether an event raises an interrupt request line on the PIC. -/
def RunEvent.isIrqReq : RunEvent → Bool
  | .pic_request_interrupt _ => true
  | _ => false

/-- The machine (`struct Machine` in `machine.rs`), over an abstract combined
device state `D`: the memory bus, the devices, the keyboard queue, the latched
error and the global cycle counter. -/
structure Machine (D : Type) where
  bus : BusInterface
  devices : D
  kb_buf : List Nat
  error : Bool
  error_str : String
  cpu_cycles : Nat

/-- `Machine::key_press`. -/
def Machine.key_press (self : Machine D) (code : Nat) : Machine D :=
  { self with kb_buf := self.kb_buf ++ [code % 256] }

/-- `Machine::key_release`: the high bit converts a scancode into its
release code. -/
def Machine.key_release (self : Machine D) (code : Nat) : Machine D :=
  { self with kb_buf := self.kb_buf ++ [(code % 256) ||| 0x80] }

/-- `Machine::reset`: reset the CPU, zero RAM, re-stamp the ROM images,
reset the PIT and the PIC.  The keyboard queue, the latched error and the
cycle counter are untouched. -/
def Machine.reset (ops : DeviceOps D) (self : Machine D) : Machine D :=
  let d1 := ops.cpu_reset self.devices
  let bus1 := self.bus.reset
  let bus2 := ops.copy_into_memory d1 bus1
  let d2 := ops.pit_reset d1
  let d3 := ops.pic_reset d2
  { self with devices := d3, bus := bus2 }

/-- The CPU-step outcome latch: `match self.cpu.step(&mut self.bus, &mut
self.io_bus)` in `machine.rs` installs the stepped devices and bus, and on
`Err` latches `error = true` with the error's string form. -/
def latch_cpu_step (m : Machine D) (out : D × BusInterface × Option String) :
    Machine D :=
  match out with
  | (d, bus, none) => { m with devices := d, bus := bus }
  | (d, bus, some e) =>
      { m with devices := d, bus := bus, error := true, error_str := e }

/-- Hardware-interrupt delivery: if the CPU's interrupt flag is enabled and
the PIC's interrupt line is asserted, fetch the vector and invoke
`cpu.do_hw_interrupt`. -/
def deliver_hw_interrupts (ops : DeviceOps D) (m : Machine D) : Machine D :=
  if ops.interrupts_enabled m.devices then
    if ops.query_interrupt_line m.devices then
      match ops.get_interrupt_vector m.devices with
      | (some irq, d3) =>
          let hw := ops.do_hw_interrupt d3 m.bus irq
          { m with devices := hw.1, bus := hw.2 }
      | (none, d3) => { m with devices := d3 }
    else m
  else m

/-- Keyboard injection: `if self.kb_buf.len() > 0 && !kb_event_processed`,
pop the front byte, hand it to the PPI, raise IRQ1 on the PIC and set the
flag.  Returns the machine, the flag and the event log. -/
def inject_keyboard (ops : DeviceOps D) (m : Machine D)
    (kb_event_processed : Bool) (events : List RunEvent) :
    Machine D × Bool × List RunEvent :=
  match m.kb_buf, kb_event_processed with
  | kb_byte :: rest, false =>
      let d5 := ops.send_keyboard m.devices kb_byte
      let d6 := ops.request_interrupt d5 1
      ({ m with devices := d6, kb_buf := rest }, true,
       events ++ [RunEvent.ppi_send_keyboard kb_byte,
                  RunEvent.pic_request_interrupt 1])
  | _, _ => (m, kb_event_processed, events)

/-- The device fan-out, in the source's fixed order: DMA, PIT, CGA, PPI,
FDC, HDC (the PIT, FDC and HDC also receive the memory bus). -/
def tick_devices (ops : DeviceOps D) (m : Machine D) : Machine D :=
  let d7 := ops.dma_run m.devices
  let pit_out := ops.pit_run d7 m.bus
  let d8 := ops.cga_run pit_out.1
  let d9 := ops.ppi_run d8
  let fdc_out := ops.fdc_run d9 pit_out.2
  let hdc_out := ops.hdc_run fdc_out.1 fdc_out.2
  { m with devices := hdc_out.1, bus := hdc_out.2 }

/-- One body of the scheduler's while loop after the breakpoint check, from
the checkpoint probe through the device fan-out (`machine.rs` lines 383-458):
patch checkpoints, the CPU step, hardware-interrupt delivery, at most one
keyboard injection per `run` call, then the device ticks.  The checkpoint
probe (`get_checkpoint`) only feeds a trace log, so its result is
discarded. -/
def run_step (ops : DeviceOps D) (m : Machine D) (flat : Nat)
    (kb_event_processed : Bool) (events : List RunEvent) :
    Machine D × Bool × List RunEvent :=
  let _cp := ops.get_checkpoint m.devices flat
  let bus1 :=
    if ops.is_patch_checkpoint m.devices flat then
      ops.install_patches m.devices m.bus
    else m.bus
  let m2 := latch_cpu_step m (ops.cpu_step m.devices bus1)
  let events2 := events ++ [RunEvent.cpu_step]
  let m3 := deliver_hw_interrupts ops m2
  let kb_out := inject_keyboard ops m3 kb_event_processed events2
  (tick_devices ops kb_out.1, kb_out.2.1, kb_out.2.2)

/-- The scheduler's while loop (`while cycles_elapsed < cycle_target_adj`),
recursing on `remaining = cycle_target_adj - cycles_elapsed`.  Each iteration
costs the fixed `fake_cycles = 7`; when the CPU is in the error state the
whole body is skipped but the cycle counters still advance; the breakpoint
check returns from `run` early. -/
def run_loop (ops : DeviceOps D) (m : Machine D) (breakpoint : Nat)
    (ignore_breakpoint kb_event_processed : Bool) (remaining : Nat)
    (events : List RunEvent) : Machine D × List RunEvent :=
  if remaining = 0 then
    (m, events)
  else
    if ops.is_error m.devices = false then
      if ops.get_flat_address m.devices = breakpoint ∧ breakpoint ≠ 0 ∧
          ignore_breakpoint = false then
        (m, events)
      else
        match run_step ops m (ops.get_flat_address m.devices)
            kb_event_processed events with
        | (m', kb', events') =>
            run_loop ops { m' with cpu_cycles := m'.cpu_cycles + 7 }
              breakpoint ignore_breakpoint kb' (remaining - 7) events'
    else
      run_loop ops { m with cpu_cycles := m.cpu_cycles + 7 }
        breakpoint ignore_breakpoint kb_event_processed (remaining - 7) events
termination_by remaining
decreasing_by all_goals omega

/-- `Machine::run(cycle_target, exec_control, breakpoint)`.  A pending reset
is consumed first; in `Paused` a pending `do_step` is consumed, sets
`ignore_breakpoint` and runs a slice of size 1, otherwise `run` returns at
once; `Running` and `BreakpointHit` run a slice of `cycle_target` cycles.
Returns the machine, the execution control and the event log. -/
def Machine.run (ops : DeviceOps D) (m : Machine D) (cycle_target : Nat)
    (exec_control : ExecutionControl) (breakpoint : Nat) :
    Machine D × ExecutionControl × List RunEvent :=
  if exec_control.do_reset then
    (Machine.reset ops m, { exec_control with do_reset := false }, [])
  else
    match exec_control.state with
    | ExecutionState.Paused =>
        if exec_control.do_step then
          let out := run_loop ops m breakpoint true false 1 []
          (out.1, { exec_control with do_step := false }, out.2)
        else
          (m, exec_control, [])
    | ExecutionState.Running =>
        let out := run_loop ops m breakpoint false false cycle_target []
        (out.1, exec_control, out.2)
    | ExecutionState.BreakpointHit =>
        let out := run_loop ops m breakpoint false false cycle_target []
        (out.1, exec_control, out.2)

/-- A trivial device model over the unit state: never in error, flat address
constantly 5, every contract call leaves the state and the bus unchanged. -/
def trivOps : DeviceOps Unit :=
  { is_error := fun _ => false
    get_flat_address := fun _ => 5
    cpu_step := fun _ bus => ((), bus, none)
    interrupts_enabled := fun _ => false
    query_interrupt_line := fun _ => false
    get_interrupt_vector := fun _ => (none, ())
    do_hw_interrupt := fun _ bus _ => ((), bus)
    send_keyboard := fun _ _ => ()
    request_interrupt := fun _ _ => ()
    dma_run := fun _ => ()
    pit_run := fun _ bus => ((), bus)
    cga_run := fun _ => ()
    ppi_run := fun _ => ()
    fdc_run := fun _ bus => ((), bus)
    hdc_run := fun _ bus => ((), bus)
    get_checkpoint := fun _ _ => none
    is_patch_checkpoint := fun _ _ => false
    install_patches := fun _ bus => bus
    cpu_reset := fun _ => ()
    copy_into_memory := fun _ bus => bus
    pit_reset := fun _ => ()
    pic_reset := fun _ => () }

/-- The trivial device model with the CPU stuck in the error state. -/
def errOps : DeviceOps Unit :=
  { trivOps with is_error := fun _ => true }

/-- A freshly constructed machine over the trivial device model. -/
def m0 : Machine Unit :=
  { bus := BusInterface.new
    devices := ()
    kb_buf := []
    error := false
    error_str := ""
    cpu_cycles := 0 }

/-- An execution control in the `Running` state with no pending requests. -/
def ecRun : ExecutionControl :=
  { state := ExecutionState.Running
    do_step := false
    do_run := false
    do_reset := false }

/-- Low bits below `2 ^ n` OR a value shifted left by `n` is their sum:
the two operands occupy disjoint bit ranges. -/
theorem lor_shiftLeft_eq_add :
    ∀ (n a b : Nat), a < 2 ^ n → a ||| b <<< n = a + b * 2 ^ n := by
  intro n
  induction n with
  | zero =>
      intro a b ha
      have ha0 : a = 0 := by omega
      subst ha0
      simp [Nat.shiftLeft_zero]
  | succ n ih =>
      intro a b ha
      have hdiv : (a ||| b <<< (n + 1)) / 2 = a / 2 ||| b <<< n := by
        rw [Nat.or_div_two, Nat.shiftLeft_succ, Nat.mul_div_cancel_left _ (by norm_num : 0 < 2)]
      have heven : (b <<< (n + 1)) % 2 = 0 := by
        rw [Nat.shiftLeft_succ]
        omega
      have hmod : (a ||| b <<< (n + 1)) % 2 = a % 2 := by
        rcases Nat.mod_two_eq_zero_or_one a with h | h
        · rcases Nat.mod_two_eq_zero_or_one (a ||| b <<< (n + 1)) with h2 | h2
          · omega
          · rw [Nat.or_mod_two_eq_one] at h2
            omega
        · rw [h, Nat.or_mod_two_eq_one]
          omega
      have hlt : a / 2 < 2 ^ n := by
        have : 2 ^ (n + 1) = 2 * 2 ^ n := by ring
        omega
      have hih := ih (a / 2) b hlt
      have hrec := Nat.div_add_mod (a ||| b <<< (n + 1)) 2
      have hamod := Nat.div_add_mod a 2
      have hg : b * 2 ^ (n + 1) = 2 * (b * 2 ^ n) := by ring
      rw [hdiv, hih, hmod] at hrec
      rw [hg]
      omega

/-- Masking with `0xFF` is reduction modulo 256. -/
theorem and_255_eq_mod (x : Nat) : x &&& 0xFF = x % 256 := by
  have h := Nat.and_pow_two_sub_one_eq_mod x 8
  norm_num at h
  exact h

/-- Shifting right by 8 is division by 256. -/
theorem shiftRight_8_eq_div (x : Nat) : x >>> 8 = x / 256 := by
  have h := Nat.shiftRight_eq_div_pow x 8
  norm_num at h
  exact h

/-- Claim C4 (code evaluation at the failing input): on a fresh bus with the
cursor at 0, the in-range cursor-based writes charge the per-byte cost twice
(8 cycles for `write_u8`/`write_i8`, 16 for `write_u16`/`write_i16`), because
the in-range branch falls through to the trailing cost accumulation, while
the cursor-based reads charge exactly 4 cycles per byte. -/
theorem C4_inrange_write_double_cost :
    (ByteInterface.write_u8 BusInterface.new 0 0).2 = 8 ∧
    (ByteInterface.write_i8 BusInterface.new 0 0).2 = 8 ∧
    (ByteInterface.write_u16 BusInterface.new 0 0).2 = 16 ∧
    (ByteInterface.write_i16 BusInterface.new 0 0).2 = 16 ∧
    (ByteInterface.read_u8 BusInterface.new 0).2.2 = 4 ∧
    (ByteInterface.read_u16 BusInterface.new 0).2.2 = 8 := by
  refine ⟨?_, ?_, ?_, ?_, ?_, ?_⟩ <;> decide

/-- Claim C5: for every in-range address `a` (`a ≤ 0xFFFFF`) whose access-mask
byte has the ROM bit set, the indexed `write_u8(a, v)` returns `Ok` with the
cycle cost and leaves the byte at `a` — and all other memory — unchanged, for
every value `v`. -/
theorem C5_rom_write_dropped (bus : BusInterface) (a v : Nat)
    (ha : a ≤ 0xFFFFF) (hrom : bus.memory_mask a &&& ROM_BIT ≠ 0) :
    BusInterface.write_u8 bus a v = Except.ok (bus, DEFAULT_CYCLE_COST) := by
  unfold BusInterface.write_u8
  rw [if_pos (show a < ADDRESS_SPACE by unfold ADDRESS_SPACE; omega),
      if_neg hrom]

/-- A bus whose access mask has the ROM bit set everywhere. -/
def romBus : BusInterface :=
  { BusInterface.new with memory_mask := fun _ => ROM_BIT }

/-- Witness for claim C5 at address 0, value 7, on a fully ROM-masked bus. -/
theorem C5_rom_write_dropped_witness :
    (0 : Nat) ≤ 0xFFFFF ∧ romBus.memory_mask 0 &&& ROM_BIT ≠ 0 ∧
      BusInterface.write_u8 romBus 0 7 = Except.ok (romBus, DEFAULT_CYCLE_COST) :=
  ⟨by decide, by decide, C5_rom_write_dropped romBus 0 7 (by decide) (by decide)⟩

/-- Claim C9: whenever a cursor-based read of the requested width does not fit
in the 1,048,576-byte memory, it returns the all-ones pattern of that width
(0xFF, -1, 0xFFFF, -1), still adds the full cycle cost to the accumulator,
and leaves the bus (in particular the cursor) unchanged. -/
theorem C9_oob_cursor_reads (bus : BusInterface) (cost : Nat) :
    (ADDRESS_SPACE < bus.cursor + 1 →
      ByteInterface.read_u8 bus cost = (0xff, bus, cost + DEFAULT_CYCLE_COST)) ∧
    (ADDRESS_SPACE < bus.cursor + 1 →
      ByteInterface.read_i8 bus cost = (-1, bus, cost + DEFAULT_CYCLE_COST)) ∧
    (ADDRESS_SPACE < bus.cursor + 2 →
      ByteInterface.read_u16 bus cost = (0xffff, bus, cost + DEFAULT_CYCLE_COST * 2)) ∧
    (ADDRESS_SPACE < bus.cursor + 2 →
      ByteInterface.read_i16 bus cost = (-1, bus, cost + DEFAULT_CYCLE_COST * 2)) := by
  refine ⟨fun h => ?_, fun h => ?_, fun h => ?_, fun h => ?_⟩
  · unfold ByteInterface.read_u8
    rw [if_neg (by omega)]
  · unfold ByteInterface.read_i8
    rw [if_neg (by omega)]
  · unfold ByteInterface.read_u16
    rw [if_neg (by unfold ADDRESS_SPACE at *; omega)]
  · unfold ByteInterface.read_i16
    rw [if_neg (by unfold ADDRESS_SPACE at *; omega)]

/-- A fresh bus with the cursor on the last byte of the address space. -/
def busAtEnd : BusInterface :=
  { BusInterface.new with cursor := 0xFFFFF }

/-- A fresh bus with the cursor one past the address space. -/
def busPastEnd : BusInterface :=
  { BusInterface.new with cursor := 0x100000 }

/-- Witness for claim C9: the spec's own scenario `set_cursor(0xFFFFF)` for
the 16-bit reads, and a cursor one past the end for the 8-bit reads. -/
theorem C9_oob_cursor_reads_witness :
    ByteInterface.read_u8 busPastEnd 0 = (0xff, busPastEnd, 4) ∧
    ByteInterface.read_i8 busPastEnd 0 = (-1, busPastEnd, 4) ∧
    ByteInterface.read_u16 busAtEnd 0 = (0xffff, busAtEnd, 8) ∧
    ByteInterface.read_i16 busAtEnd 0 = (-1, busAtEnd, 8) :=
  ⟨(C9_oob_cursor_reads busPastEnd 0).1 (by decide),
   (C9_oob_cursor_reads busPastEnd 0).2.1 (by decide),
   (C9_oob_cursor_reads busAtEnd 0).2.2.1 (by decide),
   (C9_oob_cursor_reads busAtEnd 0).2.2.2 (by decide)⟩

/-- Claim C10: the indexed `write_u16(a, x)` consults the ROM bit only of the
access-mask byte at the low address `a`: if that bit is clear, both bytes at
`a` and `a + 1` are overwritten (whatever the mask at `a + 1` says), and if
it is set, neither byte is written. -/
theorem C10_write_u16_mask_low_only (bus : BusInterface) (a x : Nat)
    (ha : a ≤ 0xFFFFE) (hx : x < 65536) :
    (bus.memory_mask a &&& ROM_BIT = 0 →
      ∃ bus2,
        BusInterface.write_u16 bus a x = Except.ok (bus2, DEFAULT_CYCLE_COST) ∧
        bus2.memory a = x % 256 ∧
        bus2.memory (a + 1) = x / 256 ∧
        ∀ i, i ≠ a → i ≠ a + 1 → bus2.memory i = bus.memory i) ∧
    (bus.memory_mask a &&& ROM_BIT ≠ 0 →
      BusInterface.write_u16 bus a x = Except.ok (bus, DEFAULT_CYCLE_COST)) := by
  have hlt : a < ADDRESS_SPACE - 1 := by unfold ADDRESS_SPACE; omega
  have hxm : x % 65536 = x := Nat.mod_eq_of_lt hx
  constructor
  · intro hm
    refine ⟨{ bus with
        memory := Function.update
          (Function.update bus.memory a (x % 65536 &&& 0xFF)) (a + 1)
          ((x % 65536) >>> 8) }, ?_, ?_, ?_, ?_⟩
    · simp only [BusInterface.write_u16]
      rw [if_pos hlt, if_pos hm]
    · show Function.update
        (Function.update bus.memory a (x % 65536 &&& 0xFF)) (a + 1)
        ((x % 65536) >>> 8) a = x % 256
      rw [Function.update_noteq (by omega), Function.update_same, hxm,
          and_255_eq_mod]
    · show Function.update
        (Function.update bus.memory a (x % 65536 &&& 0xFF)) (a + 1)
        ((x % 65536) >>> 8) (a + 1) = x / 256
      rw [Function.update_same, hxm, shiftRight_8_eq_div]
    · intro i hia hia1
      show Function.update
        (Function.update bus.memory a (x % 65536 &&& 0xFF)) (a + 1)
        ((x % 65536) >>> 8) i = bus.memory i
      rw [Function.update_noteq hia1, Function.update_noteq hia]
  · intro hm
    unfold BusInterface.write_u16
    rw [if_pos hlt, if_neg hm]

/-- A fresh bus whose access mask has the ROM bit set at address 1 only. -/
def maskMixedBus : BusInterface :=
  { BusInterface.new with
      memory_mask := fun i => if i = 1 then ROM_BIT else 0 }

/-- Witness for claim C10 at address 0: the mask at address 1 has the ROM bit
set, yet both bytes are overwritten because only the mask at 0 is consulted. -/
theorem C10_write_u16_mask_low_only_witness :
    maskMixedBus.memory_mask (0 + 1) &&& ROM_BIT ≠ 0 ∧
    (∃ bus2,
        BusInterface.write_u16 maskMixedBus 0 0x1234 =
          Except.ok (bus2, DEFAULT_CYCLE_COST) ∧
        bus2.memory 0 = 0x1234 % 256 ∧
        bus2.memory (0 + 1) = 0x1234 / 256 ∧
        ∀ i, i ≠ 0 → i ≠ 0 + 1 → bus2.memory i = maskMixedBus.memory i) :=
  ⟨by decide,
   (C10_write_u16_mask_low_only maskMixedBus 0 0x1234 (by decide)
      (by decide)).1 (by decide)⟩

/-- Claim C6: on non-ROM memory, `write_u16(a, x)` stores the low byte of `x`
at `a` and the high byte at `a + 1`, a following `read_u16(a)` returns `x`,
and the 16-bit read is the little-endian composition of the two 8-bit
reads. -/
theorem C6_write_read_u16_roundtrip (bus : BusInterface) (a x : Nat)
    (ha : a ≤ 0xFFFFE) (hx : x < 65536)
    (hm : bus.memory_mask a &&& ROM_BIT = 0)
    (_hm1 : bus.memory_mask (a + 1) &&& ROM_BIT = 0) :
    ∃ bus2,
      BusInterface.write_u16 bus a x = Except.ok (bus2, DEFAULT_CYCLE_COST) ∧
      bus2.memory a = x % 256 ∧
      bus2.memory (a + 1) = x / 256 ∧
      BusInterface.read_u16 bus2 a = Except.ok (x, DEFAULT_CYCLE_COST) ∧
      ∃ v1 v2,
        BusInterface.read_u8 bus2 a = Except.ok (v1, DEFAULT_CYCLE_COST) ∧
        BusInterface.read_u8 bus2 (a + 1) = Except.ok (v2, DEFAULT_CYCLE_COST) ∧
        BusInterface.read_u16 bus2 a =
          Except.ok (v1 ||| v2 <<< 8, DEFAULT_CYCLE_COST) := by
  obtain ⟨bus2, hw, hlo, hhi, hother⟩ :=
    (C10_write_u16_mask_low_only bus a x ha hx).1 hm
  have hlt : a < ADDRESS_SPACE - 1 := by unfold ADDRESS_SPACE; omega
  have h2 : (2 : Nat) ^ 8 = 256 := by norm_num
  have hread : BusInterface.read_u16 bus2 a = Except.ok (x, DEFAULT_CYCLE_COST) := by
    have hcompose : x % 256 ||| (x / 256) <<< 8 = x % 256 + x / 256 * 2 ^ 8 :=
      lor_shiftLeft_eq_add 8 (x % 256) (x / 256) (by rw [h2]; omega)
    have hval : x % 256 + x / 256 * 2 ^ 8 = x := by rw [h2]; omega
    unfold BusInterface.read_u16
    rw [if_pos hlt, hlo, hhi, hcompose, hval]
  refine ⟨bus2, hw, hlo, hhi, hread, x % 256, x / 256, ?_, ?_, ?_⟩
  · unfold BusInterface.read_u8
    rw [if_pos (by unfold ADDRESS_SPACE at *; omega), hlo]
  · unfold BusInterface.read_u8
    rw [if_pos (by unfold ADDRESS_SPACE at *; omega), hhi]
  · unfold BusInterface.read_u16
    rw [if_pos hlt, hlo, hhi]

/-- Length of a joined list of strings is the sum of the lengths. -/
theorem length_string_join (l : List String) :
    (String.join l).length = (l.map String.length).sum := by
  rw [String.join_eq, String.length_mk, List.length_flatten, List.map_map]
  rfl

/-- Sum of the lengths of mapped strings that all have the same length. -/
theorem sum_map_length_const {α : Type} (l : List α) (f : α → String) (c : Nat)
    (h : ∀ x ∈ l, (f x).length = c) :
    ((l.map f).map String.length).sum = c * l.length := by
  induction l with
  | nil => simp
  | cons a t ih =>
      simp only [List.map_cons, List.sum_cons, List.length_cons]
      rw [h a (by simp), ih (fun x hx => h x (by simp [hx]))]
      ring

/-- A two-digit hex cell has length 2. -/
theorem hex2_length (b : Nat) : (hex2 b).length = 2 := rfl

/-- A five-digit hex address has length 5. -/
theorem hex5_length (n : Nat) : (hex5 n).length = 5 := rfl

/-- An ASCII cell of the dump has length 1. -/
theorem dumpAsciiChar_length (b : Nat) : (dumpAsciiChar b).length = 1 := by
  unfold dumpAsciiChar
  split_ifs <;> rfl

/-- Every row of the dump has length 72: a five-digit address, a space,
sixteen three-character hex cells, a space, sixteen ASCII cells and a
newline. -/
theorem dumpRow_length (mem : Nat → Nat) (da : Nat) :
    (dumpRow mem da).length = 72 := by
  unfold dumpRow
  rw [String.length_append, String.length_append, String.length_append,
      String.length_append, String.length_append, hex5_length,
      length_string_join, length_string_join,
      sum_map_length_const _ _ 3
        (fun x _ => by rw [String.length_append, hex2_length]; rfl),
      sum_map_length_const _ _ 1 (fun x _ => dumpAsciiChar_length _)]
  rfl

/-- In range, the dump consists of `size / 16` rows of 72 characters. -/
theorem dump_flat_length (bus : BusInterface) (address size : Nat)
    (h : address + size < ADDRESS_SPACE) :
    (BusInterface.dump_flat bus address size).length = 72 * (size / 16) := by
  unfold BusInterface.dump_flat
  rw [if_neg (by omega), length_string_join,
      sum_map_length_const _ _ 72 (fun x _ => dumpRow_length _ _),
      List.length_range]

/-- Claim C7 (amended): `dump_flat(addr, size)` returns the fixed
out-of-bounds message exactly when `addr + size >= 1,048,576` (the source
uses `>=`, so a request that exactly fills the address space is already
rejected); otherwise it returns a hex+ASCII dump of `size / 16` rows of 16
bytes that is a pure function of the memory contents, with bytes 32..=127
printed verbatim and all others as a dot. -/
theorem C7_dump_flat_amended (bus bus2 : BusInterface) (address size : Nat) :
    (BusInterface.dump_flat bus address size = "REQUEST OUT OF BOUNDS" ↔
       address + size ≥ ADDRESS_SPACE) ∧
    (bus2.memory = bus.memory →
       BusInterface.dump_flat bus2 address size =
         BusInterface.dump_flat bus address size) ∧
    (address + size < ADDRESS_SPACE →
       (BusInterface.dump_flat bus address size).length = 72 * (size / 16)) ∧
    (∀ b, dumpAsciiChar b =
       if 32 ≤ b ∧ b ≤ 127 then String.singleton (Char.ofNat b) else ".") := by
  refine ⟨⟨fun h => ?_, fun h => ?_⟩, fun h => ?_, fun h => ?_, fun b => ?_⟩
  · by_contra hlt
    have hlen := dump_flat_length bus address size (by omega)
    rw [h] at hlen
    have hmsg : ("REQUEST OUT OF BOUNDS").length = 21 := rfl
    rw [hmsg] at hlen
    omega
  · unfold BusInterface.dump_flat
    rw [if_pos h]
  · unfold BusInterface.dump_flat
    rw [h]
  · exact dump_flat_length bus address size h
  · unfold dumpAsciiChar
    split_ifs <;> first | rfl | omega

/-- Counterexample to claim C7 as stated: a request of exactly the whole
address space does not exceed it (`0 + 1048576 > 1048576` is false), yet the
source's `>=` comparison returns the out-of-bounds message for it. -/
theorem C7_boundary_counterexample :
    BusInterface.dump_flat BusInterface.new 0 1048576 = "REQUEST OUT OF BOUNDS" ∧
    ¬ (0 + 1048576 > 1048576) := by
  constructor
  · unfold BusInterface.dump_flat
    rw [if_pos (by decide)]
  · decide

/-- Witness for the amended claim C7: a 32-byte in-range dump of a fresh bus
has two 72-character rows, and the ASCII cell of byte 65 is the letter
printed verbatim. -/
theorem C7_dump_flat_amended_witness :
    (BusInterface.dump_flat BusInterface.new 0 32).length = 72 * (32 / 16) ∧
    dumpAsciiChar 65 =
      if 32 ≤ 65 ∧ 65 ≤ 127 then String.singleton (Char.ofNat 65) else "." :=
  ⟨(C7_dump_flat_amended BusInterface.new BusInterface.new 0 32).2.2.1 (by decide),
   (C7_dump_flat_amended BusInterface.new BusInterface.new 0 32).2.2.2 65⟩

/-- The CPU-step latch changes neither the keyboard queue nor the cycle
counter. -/
@[simp]
theorem latch_cpu_step_kb_buf (m : Machine D)
    (out : D × BusInterface × Option String) :
    (latch_cpu_step m out).kb_buf = m.kb_buf := by
  rcases out with ⟨d, bus, _ | e⟩ <;> rfl

/-- The CPU-step latch preserves the cycle counter. -/
@[simp]
theorem latch_cpu_step_cpu_cycles (m : Machine D)
    (out : D × BusInterface × Option String) :
    (latch_cpu_step m out).cpu_cycles = m.cpu_cycles := by
  rcases out with ⟨d, bus, _ | e⟩ <;> rfl

/-- Interrupt delivery changes neither the keyboard queue nor the cycle
counter. -/
@[simp]
theorem deliver_hw_interrupts_kb_buf (ops : DeviceOps D) (m : Machine D) :
    (deliver_hw_interrupts ops m).kb_buf = m.kb_buf := by
  unfold deliver_hw_interrupts
  rcases h : ops.get_interrupt_vector m.devices with ⟨v, d3⟩
  cases v <;> split_ifs <;> simp [h]

/-- Interrupt delivery preserves the cycle counter. -/
@[simp]
theorem deliver_hw_interrupts_cpu_cycles (ops : DeviceOps D) (m : Machine D) :
    (deliver_hw_interrupts ops m).cpu_cycles = m.cpu_cycles := by
  unfold deliver_hw_interrupts
  rcases h : ops.get_interrupt_vector m.devices with ⟨v, d3⟩
  cases v <;> split_ifs <;> simp [h]

/-- The device fan-out changes neither the keyboard queue nor the cycle
counter. -/
@[simp]
theorem tick_devices_kb_buf (ops : DeviceOps D) (m : Machine D) :
    (tick_devices ops m).kb_buf = m.kb_buf := rfl

/-- The device fan-out preserves the cycle counter. -/
@[simp]
theorem tick_devices_cpu_cycles (ops : DeviceOps D) (m : Machine D) :
    (tick_devices ops m).cpu_cycles = m.cpu_cycles := rfl

/-- Keyboard injection preserves the cycle counter. -/
@[simp]
theorem inject_keyboard_cpu_cycles (ops : DeviceOps D) (m : Machine D)
    (kb : Bool) (evs : List RunEvent) :
    (inject_keyboard ops m kb evs).1.cpu_cycles = m.cpu_cycles := by
  unfold inject_keyboard
  rcases h : m.kb_buf with _ | ⟨b, rest⟩ <;> cases kb <;> simp [h]

/-- Once the per-call keyboard flag is set, injection is the identity. -/
@[simp]
theorem inject_keyboard_true (ops : DeviceOps D) (m : Machine D)
    (evs : List RunEvent) :
    inject_keyboard ops m true evs = (m, true, evs) := by
  unfold inject_keyboard
  rcases h : m.kb_buf with _ | ⟨b, rest⟩ <;> simp [h]

/-- Keyboard injection never logs a CPU-step event. -/
@[simp]
theorem inject_keyboard_filter_cpu (ops : DeviceOps D) (m : Machine D)
    (kb : Bool) (evs : List RunEvent) :
    (inject_keyboard ops m kb evs).2.2.filter RunEvent.isCpuStep =
      evs.filter RunEvent.isCpuStep := by
  unfold inject_keyboard
  rcases h : m.kb_buf with _ | ⟨b, rest⟩ <;> cases kb <;>
    simp [h, RunEvent.isCpuStep]

/-- The step body never touches the global cycle counter (the counters are
advanced by the loop, outside the body). -/
theorem run_step_cpu_cycles (ops : DeviceOps D) (m : Machine D) (flat : Nat)
    (kb : Bool) (evs : List RunEvent) :
    (run_step ops m flat kb evs).1.cpu_cycles = m.cpu_cycles := by
  simp [run_step]

/-- The step body appends exactly one CPU-step event to the log. -/
theorem run_step_events_cpu (ops : DeviceOps D) (m : Machine D) (flat : Nat)
    (kb : Bool) (evs : List RunEvent) :
    (run_step ops m flat kb evs).2.2.filter RunEvent.isCpuStep =
      evs.filter RunEvent.isCpuStep ++ [RunEvent.cpu_step] := by
  simp [run_step, List.filter_append, RunEvent.isCpuStep]

/-- When the keyboard event for this `run` call has already been processed,
the step body leaves the queue alone, keeps the flag set and logs only the
CPU step. -/
theorem run_step_kb_true (ops : DeviceOps D) (m : Machine D) (flat : Nat)
    (evs : List RunEvent) :
    (run_step ops m flat true evs).1.kb_buf = m.kb_buf ∧
    (run_step ops m flat true evs).2.1 = true ∧
    (run_step ops m flat true evs).2.2 = evs ++ [RunEvent.cpu_step] := by
  simp [run_step]

/-- When the keyboard event is still pending and the queue is non-empty, the
step body pops exactly the front byte, hands it to the PPI, raises IRQ1 on
the PIC, and sets the flag. -/
theorem run_step_kb_deliver (ops : DeviceOps D) (m : Machine D) (flat : Nat)
    (evs : List RunEvent) (b : Nat) (rest : List Nat)
    (hkb : m.kb_buf = b :: rest) :
    (run_step ops m flat false evs).1.kb_buf = rest ∧
    (run_step ops m flat false evs).2.1 = true ∧
    (run_step ops m flat false evs).2.2 =
      evs ++ [RunEvent.cpu_step, RunEvent.ppi_send_keyboard b,
              RunEvent.pic_request_interrupt 1] := by
  simp [run_step, inject_keyboard, hkb]

/-- An exhausted cycle budget stops the loop at once. -/
theorem run_loop_zero (ops : DeviceOps D) (m : Machine D) (bp : Nat)
    (ig kb : Bool) (evs : List RunEvent) :
    run_loop ops m bp ig kb 0 evs = (m, evs) := by
  rw [run_loop, if_pos rfl]

/-- When the CPU is not in error, its flat address equals a nonzero
breakpoint and the breakpoint is not ignored, the loop returns at once with
everything unchanged and no events. -/
theorem run_loop_bp_return (ops : DeviceOps D) (m : Machine D) (bp : Nat)
    (kb : Bool) (rem : Nat) (evs : List RunEvent)
    (herr : ops.is_error m.devices = false)
    (hflat : ops.get_flat_address m.devices = bp) (hbp : bp ≠ 0) :
    run_loop ops m bp false kb rem evs = (m, evs) := by
  by_cases h0 : rem = 0
  · subst h0; rw [run_loop, if_pos rfl]
  · rw [run_loop, if_neg h0, if_pos herr, if_pos ⟨hflat, hbp, rfl⟩]

/-- A CPU stuck in the error state skips every step body, yet the loop keeps
accruing the fixed 7 cycles per iteration until the budget is exhausted. -/
theorem run_loop_error (ops : DeviceOps D) (bp : Nat) (ig kb : Bool) :
    ∀ (rem : Nat) (m : Machine D) (evs : List RunEvent),
      ops.is_error m.devices = true →
      run_loop ops m bp ig kb rem evs =
        ({ m with cpu_cycles := m.cpu_cycles + 7 * ((rem + 6) / 7) }, evs) := by
  intro rem
  induction rem using Nat.strong_induction_on with
  | _ rem ih =>
      intro m evs herr
      by_cases h0 : rem = 0
      · subst h0
        rw [run_loop, if_pos rfl]
        norm_num
      · rw [run_loop, if_neg h0, if_neg (by simp [herr]),
            ih (rem - 7) (by omega)
              { m with cpu_cycles := m.cpu_cycles + 7 } evs herr]
        simp only [Prod.mk.injEq, Machine.mk.injEq, and_true, true_and]
        omega

/-- The loop never decreases the global cycle counter. -/
theorem run_loop_cycles_mono (ops : DeviceOps D) (bp : Nat) (ig : Bool) :
    ∀ (rem : Nat) (m : Machine D) (kb : Bool) (evs : List RunEvent),
      m.cpu_cycles ≤ (run_loop ops m bp ig kb rem evs).1.cpu_cycles := by
  intro rem
  induction rem using Nat.strong_induction_on with
  | _ rem ih =>
      intro m kb evs
      by_cases h0 : rem = 0
      · subst h0; rw [run_loop, if_pos rfl]
      · rw [run_loop, if_neg h0]
        by_cases herr : ops.is_error m.devices = false
        · rw [if_pos herr]
          by_cases hbp : ops.get_flat_address m.devices = bp ∧ bp ≠ 0 ∧
              ig = false
          · rw [if_pos hbp]
          · rw [if_neg hbp]
            rcases hstep : run_step ops m (ops.get_flat_address m.devices)
                kb evs with ⟨m1, kb1, evs1⟩
            have hc := run_step_cpu_cycles ops m
              (ops.get_flat_address m.devices) kb evs
            rw [hstep] at hc
            dsimp only at hc ⊢
            have h1 := ih (rem - 7) (by omega)
              { m1 with cpu_cycles := m1.cpu_cycles + 7 } kb1 evs1
            dsimp only at h1
            omega
        · rw [if_neg herr]
          have h1 := ih (rem - 7) (by omega)
            { m with cpu_cycles := m.cpu_cycles + 7 } kb evs
          dsimp only at h1
          omega

/-- With no breakpoint armed (`breakpoint = 0`), the loop always runs the
whole slice and adds exactly the least multiple of 7 covering the budget. -/
theorem run_loop_cycles_bp0 (ops : DeviceOps D) (ig : Bool) :
    ∀ (rem : Nat) (m : Machine D) (kb : Bool) (evs : List RunEvent),
      (run_loop ops m 0 ig kb rem evs).1.cpu_cycles =
        m.cpu_cycles + 7 * ((rem + 6) / 7) := by
  intro rem
  induction rem using Nat.strong_induction_on with
  | _ rem ih =>
      intro m kb evs
      by_cases h0 : rem = 0
      · subst h0; rw [run_loop, if_pos rfl]; norm_num
      · rw [run_loop, if_neg h0]
        by_cases herr : ops.is_error m.devices = false
        · rw [if_pos herr, if_neg (by simp)]
          rcases hstep : run_step ops m (ops.get_flat_address m.devices)
              kb evs with ⟨m1, kb1, evs1⟩
          have hc := run_step_cpu_cycles ops m
            (ops.get_flat_address m.devices) kb evs
          rw [hstep] at hc
          dsimp only at hc ⊢
          have h1 := ih (rem - 7) (by omega)
            { m1 with cpu_cycles := m1.cpu_cycles + 7 } kb1 evs1
          dsimp only at h1
          omega
        · rw [if_neg herr]
          have herr2 : ops.is_error m.devices = true := by
            simpa using herr
          rw [run_loop_error ops 0 ig kb (rem - 7)
            { m with cpu_cycles := m.cpu_cycles + 7 } evs herr2]
          dsimp only
          omega

/-- Once the per-call keyboard flag is set, the rest of the loop neither
pops the queue nor logs keyboard or interrupt-request events. -/
theorem run_loop_kb_processed (ops : DeviceOps D) (bp : Nat) (ig : Bool) :
    ∀ (rem : Nat) (m : Machine D) (evs : List RunEvent),
      (run_loop ops m bp ig true rem evs).1.kb_buf = m.kb_buf ∧
      (run_loop ops m bp ig true rem evs).2.filter RunEvent.isKbSend =
        evs.filter RunEvent.isKbSend ∧
      (run_loop ops m bp ig true rem evs).2.filter RunEvent.isIrqReq =
        evs.filter RunEvent.isIrqReq := by
  intro rem
  induction rem using Nat.strong_induction_on with
  | _ rem ih =>
      intro m evs
      by_cases h0 : rem = 0
      · subst h0; rw [run_loop, if_pos rfl]; exact ⟨rfl, rfl, rfl⟩
      · rw [run_loop, if_neg h0]
        by_cases herr : ops.is_error m.devices = false
        · rw [if_pos herr]
          by_cases hbp : ops.get_flat_address m.devices = bp ∧ bp ≠ 0 ∧
              ig = false
          · rw [if_pos hbp]
            exact ⟨rfl, rfl, rfl⟩
          · rw [if_neg hbp]
            rcases hstep : run_step ops m (ops.get_flat_address m.devices)
                true evs with ⟨m1, kb1, evs1⟩
            have hkb := run_step_kb_true ops m
              (ops.get_flat_address m.devices) evs
            rw [hstep] at hkb
            dsimp only at hkb
            obtain ⟨hkb1, hkb2, hkb3⟩ := hkb
            subst hkb2
            subst hkb3
            dsimp only
            have h1 := ih (rem - 7) (by omega)
              { m1 with cpu_cycles := m1.cpu_cycles + 7 }
              (evs ++ [RunEvent.cpu_step])
            dsimp only at h1
            obtain ⟨h1a, h1b, h1c⟩ := h1
            refine ⟨by rw [h1a, hkb1], ?_, ?_⟩
            · rw [h1b]
              simp [RunEvent.isKbSend]
            · rw [h1c]
              simp [RunEvent.isIrqReq]
        · rw [if_neg herr]
          have h1 := ih (rem - 7) (by omega)
            { m with cpu_cycles := m.cpu_cycles + 7 } evs
          dsimp only at h1
          exact h1

/-- In the `Running` state with no pending reset, a CPU that is not in error
and whose flat address equals the nonzero breakpoint makes `run` return at
once: machine, execution control and event log all unchanged. -/
theorem run_breakpoint_return (ops : DeviceOps D) (m : Machine D) (ct : Nat)
    (ec : ExecutionControl) (bp : Nat)
    (hstate : ec.state = ExecutionState.Running) (hreset : ec.do_reset = false)
    (herr : ops.is_error m.devices = false)
    (hflat : ops.get_flat_address m.devices = bp) (hbp : bp ≠ 0) :
    Machine.run ops m ct ec bp = (m, ec, []) := by
  simp [Machine.run, hreset, hstate,
    run_loop_bp_return ops m bp false ct [] herr hflat hbp]

/-- A slice of size 1 (the `do_step` slice, which ignores the breakpoint)
advances the cycle counter by exactly 7 and, when the CPU is not in error,
logs exactly one CPU step. -/
theorem run_loop_one (ops : DeviceOps D) (m : Machine D) (bp : Nat) :
    (run_loop ops m bp true false 1 []).1.cpu_cycles = m.cpu_cycles + 7 ∧
    (ops.is_error m.devices = false →
      (run_loop ops m bp true false 1 []).2.filter RunEvent.isCpuStep =
        [RunEvent.cpu_step]) := by
  by_cases herr : ops.is_error m.devices = false
  · rw [run_loop, if_neg (by omega), if_pos herr, if_neg (by simp)]
    rcases hstep : run_step ops m (ops.get_flat_address m.devices) false []
      with ⟨m1, kb1, evs1⟩
    have hc := run_step_cpu_cycles ops m (ops.get_flat_address m.devices)
      false []
    have he := run_step_events_cpu ops m (ops.get_flat_address m.devices)
      false []
    rw [hstep] at hc he
    dsimp only at hc he ⊢
    have h0 : (1 : Nat) - 7 = 0 := by norm_num
    rw [h0, run_loop_zero]
    constructor
    · dsimp only
      omega
    · intro _
      simpa using he
  · have herr2 : ops.is_error m.devices = true := by simpa using herr
    rw [run_loop_error ops bp true false 1 m [] herr2]
    constructor
    · dsimp only
    · intro hfalse
      exact absurd hfalse (by simp [herr2])

/-- Claim C1 (amended): with state `Running`, a nonzero breakpoint `B`, no
pending reset, the CPU not in error and the CPU's next flat address equal to
`B`, `run(cycle_target, ctl, B)` returns immediately with the machine and
the execution control unchanged — in particular the state stays `Running`
(it is not set to `BreakpointHit`) — having executed zero CPU steps, with
`cpu_cycles` unchanged. -/
theorem C1_breakpoint_amended (ops : DeviceOps D) (m : Machine D)
    (cycle_target : Nat) (ec : ExecutionControl) (B : Nat)
    (hstate : ec.state = ExecutionState.Running)
    (hreset : ec.do_reset = false) (hB : B ≠ 0)
    (herr : ops.is_error m.devices = false)
    (hflat : ops.get_flat_address m.devices = B) :
    Machine.run ops m cycle_target ec B = (m, ec, []) :=
  run_breakpoint_return ops m cycle_target ec B hstate hreset herr hflat hB

/-- Witness for the amended claim C1: on the trivial device model (flat
address 5) an armed breakpoint at 5 makes `run(1000, running, 5)` a no-op. -/
theorem C1_breakpoint_amended_witness :
    Machine.run trivOps m0 1000 ecRun 5 = (m0, ecRun, []) :=
  C1_breakpoint_amended trivOps m0 1000 ecRun 5 rfl rfl (by decide) rfl rfl

/-- Counterexample to claim C1 as stated: at the breakpoint, `run` leaves
the execution-control state at `Running` — it never sets `BreakpointHit` —
and when the CPU is in the error state the breakpoint check is skipped
entirely and `cpu_cycles` grows by the full slice. -/
theorem C1_breakpoint_counterexample :
    (Machine.run trivOps m0 1000 ecRun 5).2.1.state = ExecutionState.Running ∧
    ExecutionState.Running ≠ ExecutionState.BreakpointHit ∧
    (Machine.run errOps m0 10 ecRun 5).1.cpu_cycles = 14 ∧
    m0.cpu_cycles = 0 := by
  refine ⟨?_, by decide, ?_, rfl⟩
  · rw [run_breakpoint_return trivOps m0 1000 ecRun 5 rfl rfl rfl rfl
      (by decide)]
    rfl
  · have h := run_loop_error errOps 5 false false 10 m0 [] rfl
    simp only [Machine.run, ecRun]
    simp only [Bool.false_eq_true, if_false]
    rw [h]
    simp [m0]

/-- Claim C2 (amended): the global cycle counter is monotone non-decreasing
across every `run` call, and a full run (state `Running`, no pending reset,
no breakpoint armed) increases it by exactly `7 * ⌈cycle_target / 7⌉` — the
least multiple of the fixed step cost 7 that covers `cycle_target` — rather
than by exactly `cycle_target`. -/
theorem C2_cycle_counter_amended (ops : DeviceOps D) (m : Machine D)
    (cycle_target : Nat) (ec : ExecutionControl) (bp : Nat) :
    m.cpu_cycles ≤ (Machine.run ops m cycle_target ec bp).1.cpu_cycles ∧
    (ec.state = ExecutionState.Running → ec.do_reset = false → bp = 0 →
      (Machine.run ops m cycle_target ec bp).1.cpu_cycles =
        m.cpu_cycles + 7 * ((cycle_target + 6) / 7)) := by
  constructor
  · by_cases hr : ec.do_reset = true
    · simp [Machine.run, hr, Machine.reset]
    · have hr2 : ec.do_reset = false := by simpa using hr
      cases hstate : ec.state with
      | Paused =>
          by_cases hs : ec.do_step = true
          · simp only [Machine.run, hr2, hstate, hs, Bool.false_eq_true,
              if_false, if_true]
            exact run_loop_cycles_mono ops bp true 1 m false []
          · have hs2 : ec.do_step = false := by simpa using hs
            simp [Machine.run, hr2, hstate, hs2]
      | Running =>
          simp only [Machine.run, hr2, hstate, Bool.false_eq_true, if_false]
          exact run_loop_cycles_mono ops bp false cycle_target m false []
      | BreakpointHit =>
          simp only [Machine.run, hr2, hstate, Bool.false_eq_true, if_false]
          exact run_loop_cycles_mono ops bp false cycle_target m false []
  · intro h1 h2 h3
    subst h3
    simp only [Machine.run, h1, h2, Bool.false_eq_true, if_false]
    exact run_loop_cycles_bp0 ops false cycle_target m false []

/-- Witness for the amended claim C2 at `cycle_target = 10` on the trivial
model: monotone, and a full run adds `7 * ((10 + 6) / 7) = 14` cycles. -/
theorem C2_cycle_counter_amended_witness :
    m0.cpu_cycles ≤ (Machine.run trivOps m0 10 ecRun 0).1.cpu_cycles ∧
    (Machine.run trivOps m0 10 ecRun 0).1.cpu_cycles =
      m0.cpu_cycles + 7 * ((10 + 6) / 7) :=
  ⟨(C2_cycle_counter_amended trivOps m0 10 ecRun 0).1,
   (C2_cycle_counter_amended trivOps m0 10 ecRun 0).2 rfl rfl rfl⟩

/-- Counterexample to claim C2 as stated: a full `run(1, running, 0)` call
increases `cpu_cycles` by 7 (one fixed-cost iteration), not by the claimed
`cycle_target_adj = 1`. -/
theorem C2_cycle_counter_counterexample :
    (Machine.run trivOps m0 1 ecRun 0).1.cpu_cycles = 7 ∧
    (7 : Nat) ≠ 0 + 1 := by
  constructor
  · have h := run_loop_cycles_bp0 trivOps false 1 m0 false []
    simp only [Machine.run, ecRun]
    simp only [Bool.false_eq_true, if_false]
    rw [h]
    simp [m0]
  · decide

/-- Claim C3 (amended): a `run` call in the `Running` state with
`cycle_target ≥ 1`, no pending reset, a non-empty keyboard queue, the CPU not
in error, and the breakpoint check not firing on entry (no nonzero breakpoint
equal to the CPU's initial flat address) pops exactly one byte from the front
of the queue, hands exactly that byte to the PPI, and raises IRQ1 on the PIC
exactly once — regardless of queue depth or of the number of steps
executed. -/
theorem C3_keyboard_amended (ops : DeviceOps D) (m : Machine D)
    (cycle_target : Nat) (ec : ExecutionControl) (bp : Nat)
    (b : Nat) (rest : List Nat)
    (hstate : ec.state = ExecutionState.Running)
    (hreset : ec.do_reset = false)
    (hct : 1 ≤ cycle_target)
    (hkb : m.kb_buf = b :: rest)
    (herr : ops.is_error m.devices = false)
    (hnobp : ¬(ops.get_flat_address m.devices = bp ∧ bp ≠ 0)) :
    (Machine.run ops m cycle_target ec bp).1.kb_buf = rest ∧
    (Machine.run ops m cycle_target ec bp).2.2.filter RunEvent.isKbSend =
      [RunEvent.ppi_send_keyboard b] ∧
    (Machine.run ops m cycle_target ec bp).2.2.filter RunEvent.isIrqReq =
      [RunEvent.pic_request_interrupt 1] := by
  simp only [Machine.run, hreset, hstate, Bool.false_eq_true, if_false]
  rw [run_loop, if_neg (by omega), if_pos herr,
    if_neg (by simpa using hnobp)]
  rcases hstep : run_step ops m (ops.get_flat_address m.devices) false []
    with ⟨m1, kb1, evs1⟩
  have hd := run_step_kb_deliver ops m (ops.get_flat_address m.devices) []
    b rest hkb
  rw [hstep] at hd
  dsimp only at hd ⊢
  obtain ⟨hd1, hd2, hd3⟩ := hd
  subst hd2
  subst hd3
  obtain ⟨ha, hb2, hc2⟩ := run_loop_kb_processed ops bp false
    (cycle_target - 7) { m1 with cpu_cycles := m1.cpu_cycles + 7 }
    ([] ++ [RunEvent.cpu_step, RunEvent.ppi_send_keyboard b,
            RunEvent.pic_request_interrupt 1])
  dsimp only at ha hb2 hc2
  refine ⟨by rw [ha, hd1], ?_, ?_⟩
  · rw [hb2]
    simp [RunEvent.isKbSend]
  · rw [hc2]
    simp [RunEvent.isIrqReq]

/-- A machine over the trivial device model with one queued scancode. -/
def m0k : Machine Unit :=
  { m0 with kb_buf := [42] }

/-- Witness for the amended claim C3: the spec's keyboard rate-limit
scenario, `run(21, running, 0)` with a queued scancode. -/
theorem C3_keyboard_amended_witness :
    (Machine.run trivOps m0k 21 ecRun 0).1.kb_buf = [] ∧
    (Machine.run trivOps m0k 21 ecRun 0).2.2.filter RunEvent.isKbSend =
      [RunEvent.ppi_send_keyboard 42] ∧
    (Machine.run trivOps m0k 21 ecRun 0).2.2.filter RunEvent.isIrqReq =
      [RunEvent.pic_request_interrupt 1] :=
  C3_keyboard_amended trivOps m0k 21 ecRun 0 42 [] rfl rfl (by decide) rfl
    rfl (by decide)

/-- An execution control in the `Running` state with a pending reset. -/
def ecRunReset : ExecutionControl :=
  { ecRun with do_reset := true }

/-- Counterexample to claim C3 as stated: with a nonzero breakpoint at the
CPU's flat address, or with a pending reset, `run` returns before the
keyboard phase — the queue is untouched and nothing reaches the PPI. -/
theorem C3_keyboard_counterexample :
    ((Machine.run trivOps m0k 21 ecRun 5).1.kb_buf = [42] ∧
     (Machine.run trivOps m0k 21 ecRun 5).2.2.filter RunEvent.isKbSend = []) ∧
    ((Machine.run trivOps m0k 21 ecRunReset 0).1.kb_buf = [42] ∧
     (Machine.run trivOps m0k 21 ecRunReset 0).2.2.filter
        RunEvent.isKbSend = []) := by
  constructor
  · rw [run_breakpoint_return trivOps m0k 21 ecRun 5 rfl rfl rfl rfl
      (by decide)]
    exact ⟨rfl, rfl⟩
  · exact ⟨rfl, rfl⟩

/-- Claim C8: a `run` call in the `Paused` state with `do_step` set and no
pending reset clears `do_step`, leaves the state `Paused`, executes exactly
one scheduler step (one fixed-cost iteration) during which the breakpoint is
ignored — the cycle counter grows by exactly 7 and, when the CPU is not in
error, exactly one CPU step is logged, for every breakpoint argument,
including one equal to the CPU's flat address — and the ignore-breakpoint
effect does not persist: a following `run` in the `Running` state at the
same armed breakpoint returns at once with nothing executed. -/
theorem C8_do_step (ops : DeviceOps D) (m : Machine D) (cycle_target : Nat)
    (ec : ExecutionControl) (bp : Nat)
    (hstate : ec.state = ExecutionState.Paused)
    (hstep : ec.do_step = true) (hreset : ec.do_reset = false) :
    (Machine.run ops m cycle_target ec bp).2.1 =
      { ec with do_step := false } ∧
    (Machine.run ops m cycle_target ec bp).2.1.state =
      ExecutionState.Paused ∧
    (Machine.run ops m cycle_target ec bp).1.cpu_cycles =
      m.cpu_cycles + 7 ∧
    (ops.is_error m.devices = false →
      (Machine.run ops m cycle_target ec bp).2.2.filter RunEvent.isCpuStep =
        [RunEvent.cpu_step]) ∧
    (∀ (ec2 : ExecutionControl) (ct2 : Nat),
      ec2.state = ExecutionState.Running → ec2.do_reset = false →
      ops.is_error (Machine.run ops m cycle_target ec bp).1.devices = false →
      ops.get_flat_address (Machine.run ops m cycle_target ec bp).1.devices =
        bp →
      bp ≠ 0 →
      Machine.run ops (Machine.run ops m cycle_target ec bp).1 ct2 ec2 bp =
        ((Machine.run ops m cycle_target ec bp).1, ec2, [])) := by
  have hrun : Machine.run ops m cycle_target ec bp =
      ((run_loop ops m bp true false 1 []).1,
       { ec with do_step := false },
       (run_loop ops m bp true false 1 []).2) := by
    simp [Machine.run, hreset, hstate, hstep]
  rw [hrun]
  obtain ⟨hc, he⟩ := run_loop_one ops m bp
  refine ⟨rfl, by rw [hstate], hc, he, ?_⟩
  intro ec2 ct2 h1 h2 h3 h4 h5
  exact run_breakpoint_return ops _ ct2 ec2 bp h1 h2 h3 h4 h5

/-- An execution control in the `Paused` state with a pending step request. -/
def ecPausedStep : ExecutionControl :=
  { state := ExecutionState.Paused
    do_step := true
    do_run := false
    do_reset := false }

/-- Witness for claim C8 on the trivial model: the armed breakpoint 5 sits
exactly at the CPU's flat address, yet the single step runs, consumes 7
cycles and logs one CPU step. -/
theorem C8_do_step_witness :
    (Machine.run trivOps m0 5 ecPausedStep 5).2.1 =
      { ecPausedStep with do_step := false } ∧
    (Machine.run trivOps m0 5 ecPausedStep 5).1.cpu_cycles =
      m0.cpu_cycles + 7 ∧
    (Machine.run trivOps m0 5 ecPausedStep 5).2.2.filter
      RunEvent.isCpuStep = [RunEvent.cpu_step] :=
  ⟨(C8_do_step trivOps m0 5 ecPausedStep 5 rfl rfl rfl).1,
   (C8_do_step trivOps m0 5 ecPausedStep 5 rfl rfl rfl).2.2.1,
   (C8_do_step trivOps m0 5 ecPausedStep 5 rfl rfl rfl).2.2.2.1 rfl⟩

/-- Witness for claim C6: the spec's little-endian scenario, writing 0x1234
at 0x100 on a fresh bus and reading it back. -/
theorem C6_write_read_u16_roundtrip_witness :
    ∃ bus2,
      BusInterface.write_u16 BusInterface.new 0x100 0x1234 =
        Except.ok (bus2, DEFAULT_CYCLE_COST) ∧
      bus2.memory 0x100 = 0x1234 % 256 ∧
      bus2.memory (0x100 + 1) = 0x1234 / 256 ∧
      BusInterface.read_u16 bus2 0x100 =
        Except.ok (0x1234, DEFAULT_CYCLE_COST) ∧
      ∃ v1 v2,
        BusInterface.read_u8 bus2 0x100 =
          Except.ok (v1, DEFAULT_CYCLE_COST) ∧
        BusInterface.read_u8 bus2 (0x100 + 1) =
          Except.ok (v2, DEFAULT_CYCLE_COST) ∧
        BusInterface.read_u16 bus2 0x100 =
          Except.ok (v1 ||| v2 <<< 8, DEFAULT_CYCLE_COST) :=
  C6_write_read_u16_roundtrip BusInterface.new 0x100 0x1234 (by decide)
    (by decide) (by decide) (by decide)
